import Mathlib

/-!
Verification of the invoice-app extraction pipeline core.

Shallow embedding notes:
* Python floats are modelled as exact rationals (`ℚ`); `round(x, 2)` is
  modelled by `round2` (round half up on exact rationals).  No concrete
  input used below sits on a rounding tie.
* `Optional[T]` fields are `Option`; Python truthiness on an optional
  float (`None` and `0.0` are falsy) is `truthyQ`.
* Python dicts returned by the validators are modelled as structures
  whose `Option` fields are `none` exactly when the corresponding dict
  key is absent in that branch of the source.
-/

attribute [local semireducible] Rat.add Rat.mul Rat.sub Rat.inv

namespace InvoiceApp

/-- Model of `app.core.models.InvoiceItem`. -/
structure InvoiceItem where
  product_name : Option String
  quantity : Option ℚ
  unit_price : Option ℚ
  total_price : Option ℚ
  descr : Option String
deriving DecidableEq

/-- Model of `app.core.models.InvoiceGeneral`. -/
structure InvoiceGeneral where
  invoice_number : Option String
  date : Option String
  supplier_name : Option String
  total_amount : Option ℚ
  currency : Option String
deriving DecidableEq

/-- Model of `app.core.models.InvoiceExtraction`. -/
structure InvoiceExtraction where
  general_fields : InvoiceGeneral
  items : List InvoiceItem
deriving DecidableEq

/-- Model of `app.core.models.AgentDecision`. -/
structure AgentDecision where
  selected_source : String
  confidence : ℚ
  reasoning : String
  result : InvoiceExtraction
deriving DecidableEq

/-- Python truthiness of an optional float: `None` and `0.0` are falsy. -/
def truthyQ : Option ℚ → Bool
  | none => false
  | some x => x ≠ 0

/-- Model of Python `round(x, 2)` on exact rationals. -/
def round2 (x : ℚ) : ℚ := ((round (x * 100) : ℤ) : ℚ) / 100

/-- Result dict of `validate_item_calculation`: `expected`/`actual` are
present only in the computed branch, `skipped` only in the skip branch
(modelled as a Bool that is `false` there). -/
structure ItemValidation where
  item_index : ℕ
  product : Option String
  valid : Bool
  skipped : Bool
  expected : Option ℚ
  actual : Option ℚ
deriving DecidableEq

/-- Model of `app.core.validators.validate_item_calculation`.  The guard
mirrors `not all([item.quantity, item.unit_price, item.total_price])`,
where Python treats `None` and `0.0` as falsy. -/
def validate_item_calculation (item : InvoiceItem) (index : ℕ) : ItemValidation :=
  if ¬ (truthyQ item.quantity ∧ truthyQ item.unit_price ∧ truthyQ item.total_price) then
    { item_index := index, product := item.product_name, valid := true,
      skipped := true, expected := none, actual := none }
  else
    let expected := round2 (item.quantity.getD 0 * item.unit_price.getD 0)
    let actual := round2 (item.total_price.getD 0)
    { item_index := index, product := item.product_name,
      valid := |expected - actual| < 1/100, skipped := false,
      expected := some expected, actual := some actual }

/-- Result dict of `validate_tax`; `Option` fields are `none` when the
corresponding key is absent in that branch of the source. -/
structure TaxValidation where
  valid : Bool
  skipped : Bool
  items_subtotal : Option ℚ
  expected_with_tax : Option ℚ
  actual_total : Option ℚ
  tax_rate : Option ℚ
  vat_applied : Option Bool
deriving DecidableEq

/-- Sum of the present line-item totals, as in `validate_tax`. -/
def items_subtotal (data : InvoiceExtraction) : ℚ :=
  (data.items.filterMap (fun i => i.total_price)).sum

/-- Model of `app.core.validators.validate_tax` (default `tax_rate` is
`18/100` at every call site below).  The guard mirrors
`items_total <= 0 or not data.general_fields.total_amount`, where Python
treats `None` and `0.0` as falsy. -/
def validate_tax (data : InvoiceExtraction) (tax_rate : ℚ) : TaxValidation :=
  let items_total := items_subtotal data
  if items_total ≤ 0 ∨ ¬ truthyQ data.general_fields.total_amount then
    { valid := true, skipped := true, items_subtotal := none,
      expected_with_tax := none, actual_total := none, tax_rate := none,
      vat_applied := none }
  else
    let actual_total := data.general_fields.total_amount.getD 0
    let expected_with_tax := round2 (items_total * (1 + tax_rate))
    let tax_diff := |expected_with_tax - actual_total|
    let no_tax_diff := |items_total - actual_total|
    if tax_diff < 1 then
      { valid := true, skipped := false, items_subtotal := some items_total,
        expected_with_tax := some expected_with_tax,
        actual_total := some actual_total, tax_rate := some tax_rate,
        vat_applied := some true }
    else if no_tax_diff < 1 then
      { valid := true, skipped := false, items_subtotal := some items_total,
        expected_with_tax := none, actual_total := some actual_total,
        tax_rate := none, vat_applied := some false }
    else
      { valid := false, skipped := false, items_subtotal := some items_total,
        expected_with_tax := some expected_with_tax,
        actual_total := some actual_total, tax_rate := some tax_rate,
        vat_applied := none }

/-- Result dict of `validate_invoice`. -/
structure InvoiceValidation where
  item_calculations : List ItemValidation
  tax_validation : TaxValidation
  all_valid : Bool
deriving DecidableEq

/-- Model of `app.core.validators.validate_invoice`. -/
def validate_invoice (data : InvoiceExtraction) : InvoiceValidation :=
  let item_validations :=
    data.items.enum.map (fun p => validate_item_calculation p.2 p.1)
  let tax_validation := validate_tax data (18/100)
  { item_calculations := item_validations,
    tax_validation := tax_validation,
    all_valid := item_validations.all (fun v => v.valid) && tax_validation.valid }

/-- Count of non-null header fields, as iterated by `_calculate_score`. -/
def count_general (g : InvoiceGeneral) : ℕ :=
  [g.invoice_number.isSome, g.date.isSome, g.supplier_name.isSome,
   g.total_amount.isSome, g.currency.isSome].count true

/-- Count of non-null item-field slots (4 slots per item), as iterated by
`_calculate_score`. -/
def count_item_fields (items : List InvoiceItem) : ℕ :=
  (items.map (fun i =>
    [i.product_name.isSome, i.quantity.isSome, i.unit_price.isSome,
     i.total_price.isSome].count true)).sum

/-- Model of `DecisionAgent._calculate_score`. -/
def calculate_score (extraction : InvoiceExtraction) : ℚ :=
  let completeness : ℚ := (count_general extraction.general_fields : ℚ) / 5
  let items_score : ℚ :=
    if extraction.items.isEmpty then 0
    else
      let item_completeness : ℚ :=
        (count_item_fields extraction.items : ℚ) / ((extraction.items.length : ℚ) * 4)
      2/10 + item_completeness * (1/10)
  let validations := validate_invoice extraction
  let validation_score : ℚ :=
    if validations.all_valid then 4/10
    else
      (if validations.item_calculations.isEmpty then 0
       else ((validations.item_calculations.countP (fun c => c.valid) : ℚ) /
              (validations.item_calculations.length : ℚ)) * (2/10))
      + (if validations.tax_validation.valid then 2/10 else 0)
  min (completeness * (3/10) + items_score + validation_score) 1

/-- Stable insertion for a descending sort keyed by `f`: `x` is placed in
front of the first element whose key is not larger, so ties keep the
original order — the behavior of Python's stable `list.sort` with
`reverse=True`. -/
def insert_desc {α : Type} (f : α → ℚ) (x : α) : List α → List α
  | [] => [x]
  | y :: ys => if f y ≤ f x then x :: y :: ys else y :: insert_desc f x ys

/-- Stable descending insertion sort keyed by `f`. -/
def sort_desc {α : Type} (f : α → ℚ) : List α → List α
  | [] => []
  | x :: xs => insert_desc f x (sort_desc f xs)

/-- One scored entry `(source, extraction, score)` as built by the
decision agent. -/
def mk_scored (r : String × InvoiceExtraction) : String × InvoiceExtraction × ℚ :=
  (r.1, r.2, calculate_score r.2)

/-- Score projection of a scored entry (the sort key `lambda x: x[2]`). -/
def triple_score (t : String × InvoiceExtraction × ℚ) : ℚ := t.2.2

/-- Model of `DecisionAgent._select_best_heuristic`.  Returns `none` on an
empty result list (where the source would raise an index error); the
reasoning string stands for the formatted message of the source. -/
def select_best_heuristic (results : List (String × InvoiceExtraction)) :
    Option AgentDecision :=
  match sort_desc triple_score (results.map mk_scored) with
  | [] => none
  | t :: _ =>
    some { selected_source := t.1, confidence := t.2.2,
           reasoning := "Selected based on quality score", result := t.2.1 }

/-- A judge backend call: given the two candidates put in the comparison
prompt, it returns `some` decision (the parsed model output, arbitrary)
or `none` (the call raised). -/
def JudgeFn : Type :=
  (String × InvoiceExtraction) → (String × InvoiceExtraction) → Option AgentDecision

/-- Outcome of a `DecisionAgent.decide` run, instrumented with whether
the judge backend was invoked and, if so, with which pair of candidates;
`decision = none` models the `RuntimeError` raised when no extraction
succeeded. -/
structure DecideTrace where
  decision : Option AgentDecision
  judge_invoked : Bool
  judge_pair : Option ((String × InvoiceExtraction) × (String × InvoiceExtraction))

/-- Model of `DecisionAgent._select_best_llm`: with fewer than two
results the lone result is returned with confidence 0.8; otherwise the
judge is called on `results[0]` and `results[1]`, and a judge failure
falls back to `_select_best_heuristic`. -/
def select_best_llm (judge : JudgeFn) (results : List (String × InvoiceExtraction)) :
    DecideTrace :=
  match results with
  | [] => ⟨none, false, none⟩
  | [r] => ⟨some ⟨r.1, 8/10, "Only one result available", r.2⟩, false, none⟩
  | ra :: rb :: rest =>
    match judge ra rb with
    | some d => ⟨some d, true, some (ra, rb)⟩
    | none => ⟨select_best_heuristic (ra :: rb :: rest), true, some (ra, rb)⟩

/-- Model of `DecisionAgent.decide` from the point where the successful
extraction results `(source, extraction)` have been collected, in backend
completion order.  The single-result branch also stands for the
single-extractor mode, which builds its decision from the lone extraction
in the same way. -/
def decide_from_results (judge : JudgeFn) (results : List (String × InvoiceExtraction)) :
    DecideTrace :=
  match results with
  | [] => ⟨none, false, none⟩
  | [r] => ⟨some ⟨r.1, calculate_score r.2, "Only one extraction succeeded", r.2⟩,
            false, none⟩
  | ra :: rb :: rest =>
    match sort_desc triple_score ((ra :: rb :: rest).map mk_scored) with
    | t1 :: t2 :: _ =>
      if |t1.2.2 - t2.2.2| < 15/100 then select_best_llm judge (ra :: rb :: rest)
      else ⟨select_best_heuristic (ra :: rb :: rest), false, none⟩
    | _ => ⟨none, false, none⟩

/-- Model of `app.core.models.OCRResult`. -/
structure OCRResult where
  text : String
  confidence : ℚ
  language : String
  retry_count : ℕ
  provider : String
deriving DecidableEq

/-- Python `max(results, key=lambda r: r.confidence)`: the first element
of maximal confidence, folded left over the list. -/
def max_by_conf (acc : OCRResult) : List OCRResult → OCRResult
  | [] => acc
  | r :: rs => max_by_conf (if acc.confidence < r.confidence then r else acc) rs

/-- Loop of `OCRProviderChain.extract`.  Each provider's behavior on the
given input is an `Option OCRResult` (`none` models a raised engine
error); `retained` accumulates below-threshold successes. -/
def chain_extract_aux (minc : ℚ) :
    List (Option OCRResult) → List OCRResult → Option OCRResult
  | [], retained =>
    match retained with
    | [] => none
    | r :: rs => some (max_by_conf r rs)
  | none :: ps, retained => chain_extract_aux minc ps retained
  | some r :: ps, retained =>
    if minc ≤ r.confidence then some r
    else chain_extract_aux minc ps (retained ++ [r])

/-- Model of `OCRProviderChain.extract`: `none` models the aggregate
`RuntimeError` raised when no provider succeeded. -/
def chain_extract (minc : ℚ) (outcomes : List (Option OCRResult)) : Option OCRResult :=
  chain_extract_aux minc outcomes []

/-- Quality rating, `Literal["good", "poor"]` in the source. -/
inductive Quality where
  | good
  | poor
deriving DecidableEq

/-- Model of `app.core.models.OCRQualityAssessment`; `suggested_params`
is an insertion-ordered association list modelling the Python dict. -/
structure OCRQualityAssessment where
  quality : Quality
  confidence : ℚ
  issues : List String
  should_retry : Bool
  suggested_params : Option (List (String × ℚ))
deriving DecidableEq

/-- Model of `app.prompts.ocr_prompts.OCR_RETRY_PARAMS`. -/
def OCR_RETRY_PARAMS : List (String × List (String × ℚ)) :=
  [("empty_text", [("det_db_thresh", 2/10), ("det_db_box_thresh", 3/10)]),
   ("text_too_short", [("det_db_thresh", 2/10)]),
   ("no_numbers", [("det_db_thresh", 25/100)]),
   ("excessive_special_chars", [("det_db_thresh", 35/100), ("det_db_unclip_ratio", 2)]),
   ("low_confidence", [("det_db_thresh", 3/10)])]

/-- Setting one key of a Python dict: an existing key is updated in
place, a new key is appended. -/
def dict_set (d : List (String × ℚ)) (k : String) (v : ℚ) : List (String × ℚ) :=
  if d.any (fun p => p.1 == k) then d.map (fun p => if p.1 == k then (k, v) else p)
  else d ++ [(k, v)]

/-- Python `dict.update`: later values win on key conflicts. -/
def dict_update (d upd : List (String × ℚ)) : List (String × ℚ) :=
  upd.foldl (fun acc kv => dict_set acc kv.1 kv.2) d

/-- Model of `OCRAgent._get_retry_params`. -/
def get_retry_params (issues : List String) : List (String × ℚ) :=
  let params := issues.foldl (fun acc issue =>
    match OCR_RETRY_PARAMS.find? (fun p => p.1 == issue) with
    | some p => dict_update acc p.2
    | none => acc) []
  if params.isEmpty then [("det_db_thresh", 3/10)] else params

/-- Count of characters that are neither alphanumeric nor whitespace
(`not c.isalnum() and not c.isspace()`, restricted to the ASCII reading
of those predicates). -/
def special_count (text : String) : ℕ :=
  text.toList.countP (fun c => !c.isAlphanum && !c.isWhitespace)

/-- Heuristic quick issues of `OCRAgent.assess_quality`, in the order the
source appends them. -/
def quick_issues_of (text : String) : List String :=
  (if text.length < 50 then ["text_too_short"] else []) ++
  (if ¬ text.toList.any (fun c => c.isDigit) then ["no_numbers"] else []) ++
  (if (special_count text : ℚ) / (text.length : ℚ) > 3/10 then
    ["excessive_special_chars"] else [])

/-- Python `not text.strip()`: true exactly when the text contains only
whitespace (stripping whitespace from both ends leaves the empty
string). -/
def is_blank (s : String) : Bool := s.toList.all (fun c => c.isWhitespace)

/-- Python truthiness of the optional `suggested_params` dict: `None` and
the empty dict are falsy. -/
def params_falsy : Option (List (String × ℚ)) → Bool
  | none => true
  | some l => l.isEmpty

/-- Model of `OCRAgent.assess_quality`, instrumented with a flag telling
whether the model backend was called.  `llm` is the backend's behavior on
this call: `some` a parsed assessment, or `none` for a raised error. -/
def assess_quality (llm : Option OCRQualityAssessment) (ocr : OCRResult) :
    OCRQualityAssessment × Bool :=
  if is_blank ocr.text then
    ({ quality := .poor, confidence := 0, issues := ["empty_text"],
       should_retry := true, suggested_params := some [("det_db_thresh", 2/10)] }, false)
  else
    let quick_issues := quick_issues_of ocr.text
    if 2 ≤ quick_issues.length then
      ({ quality := .poor, confidence := 3/10, issues := quick_issues,
         should_retry := true,
         suggested_params := some (get_retry_params quick_issues) }, false)
    else
      match llm with
      | some a =>
        (if a.should_retry && params_falsy a.suggested_params then
          { a with suggested_params := some (get_retry_params a.issues) }
         else a, true)
      | none =>
        ({ quality := if 7/10 < ocr.confidence then .good else .poor,
           confidence := ocr.confidence, issues := ["assessment_failed"],
           should_retry := decide (ocr.confidence < 5/10),
           suggested_params := none }, true)

/-- Sample candidate with nothing extracted; its score is `0.4` (empty
items make the validation report vacuously valid). -/
def sampleEmpty : InvoiceExtraction := ⟨⟨none, none, none, none, none⟩, []⟩

/-- Sample candidate with all five header fields present and no items;
its score is `0.7`. -/
def sampleFull : InvoiceExtraction :=
  ⟨⟨some "INV-1", some "2024-01-01", some "ACME", some 100, some "TRY"⟩, []⟩

/-- Sample candidate with four of five header fields present and no
items; its score is `0.64`. -/
def sampleFour : InvoiceExtraction :=
  ⟨⟨some "INV-2", some "2024-01-02", some "ACME", some 100, none⟩, []⟩

/-- Statement of the spec's per-item validation contract, literally as
written: the skip branch is taken exactly when a field is missing
(`None`), and otherwise the arithmetic verdict is reported. -/
def item_claim_spec (item : InvoiceItem) (index : ℕ) : Prop :=
  match item.quantity, item.unit_price, item.total_price with
  | some q, some up, some tp =>
    (validate_item_calculation item index).item_index = index ∧
    (validate_item_calculation item index).expected = some (round2 (q * up)) ∧
    (validate_item_calculation item index).actual = some (round2 tp) ∧
    ((validate_item_calculation item index).valid = true ↔
      |round2 (q * up) - round2 tp| < 1/100)
  | _, _, _ =>
    (validate_item_calculation item index).valid = true ∧
    (validate_item_calculation item index).skipped = true ∧
    (validate_item_calculation item index).item_index = index

/-- Per-item validation contract amended for Python truthiness: a field
equal to `0` is treated like a missing field. -/
def item_claim_amended_spec (item : InvoiceItem) (index : ℕ) : Prop :=
  match item.quantity, item.unit_price, item.total_price with
  | some q, some up, some tp =>
    if q = 0 ∨ up = 0 ∨ tp = 0 then
      (validate_item_calculation item index).valid = true ∧
      (validate_item_calculation item index).skipped = true ∧
      (validate_item_calculation item index).item_index = index
    else
      (validate_item_calculation item index).item_index = index ∧
      (validate_item_calculation item index).expected = some (round2 (q * up)) ∧
      (validate_item_calculation item index).actual = some (round2 tp) ∧
      ((validate_item_calculation item index).valid = true ↔
        |round2 (q * up) - round2 tp| < 1/100)
  | _, _, _ =>
    (validate_item_calculation item index).valid = true ∧
    (validate_item_calculation item index).skipped = true ∧
    (validate_item_calculation item index).item_index = index

/-- Statement of the spec's tax-check contract, literally as written:
the skip branch is taken exactly when the subtotal is nonpositive or the
header total is missing (`None`). -/
def tax_claim_spec (data : InvoiceExtraction) : Prop :=
  match data.general_fields.total_amount with
  | none =>
    (validate_tax data (18/100)).valid = true ∧ (validate_tax data (18/100)).skipped = true
  | some total =>
    if items_subtotal data ≤ 0 then
      (validate_tax data (18/100)).valid = true ∧
      (validate_tax data (18/100)).skipped = true
    else if |round2 (items_subtotal data * (1 + 18/100)) - total| < 1 then
      (validate_tax data (18/100)).valid = true ∧
      (validate_tax data (18/100)).vat_applied = some true ∧
      (validate_tax data (18/100)).skipped = false
    else if |items_subtotal data - total| < 1 then
      (validate_tax data (18/100)).valid = true ∧
      (validate_tax data (18/100)).vat_applied = some false ∧
      (validate_tax data (18/100)).skipped = false
    else
      (validate_tax data (18/100)).valid = false ∧
      (validate_tax data (18/100)).items_subtotal = some (items_subtotal data) ∧
      (validate_tax data (18/100)).expected_with_tax =
        some (round2 (items_subtotal data * (1 + 18/100))) ∧
      (validate_tax data (18/100)).actual_total = some total

/-- Tax-check contract amended for Python truthiness: a header total
equal to `0` is treated like a missing header total. -/
def tax_claim_amended_spec (data : InvoiceExtraction) : Prop :=
  match data.general_fields.total_amount with
  | none =>
    (validate_tax data (18/100)).valid = true ∧ (validate_tax data (18/100)).skipped = true
  | some total =>
    if items_subtotal data ≤ 0 ∨ total = 0 then
      (validate_tax data (18/100)).valid = true ∧
      (validate_tax data (18/100)).skipped = true
    else if |round2 (items_subtotal data * (1 + 18/100)) - total| < 1 then
      (validate_tax data (18/100)).valid = true ∧
      (validate_tax data (18/100)).vat_applied = some true ∧
      (validate_tax data (18/100)).skipped = false
    else if |items_subtotal data - total| < 1 then
      (validate_tax data (18/100)).valid = true ∧
      (validate_tax data (18/100)).vat_applied = some false ∧
      (validate_tax data (18/100)).skipped = false
    else
      (validate_tax data (18/100)).valid = false ∧
      (validate_tax data (18/100)).items_subtotal = some (items_subtotal data) ∧
      (validate_tax data (18/100)).expected_with_tax =
        some (round2 (items_subtotal data * (1 + 18/100))) ∧
      (validate_tax data (18/100)).actual_total = some total

/-- Statement of the spec's scoring formula, literally as written:
`0.3·(header fraction)`, plus `0.2 + 0.1·(item-slot fraction)` when items
are present, plus `0.4` when the validation report is overall valid and
otherwise `0.2·(valid item fraction)` plus `0.2` when the tax verdict
alone is valid; the sum is capped at `1`. -/
def score_claim_spec (e : InvoiceExtraction) : ℚ :=
  let header_frac : ℚ := (count_general e.general_fields : ℚ) / 5
  let items_part : ℚ :=
    if e.items = [] then 0
    else 2/10 + (1/10) * ((count_item_fields e.items : ℚ) / ((e.items.length : ℚ) * 4))
  let valid_part : ℚ :=
    if (validate_invoice e).all_valid then 4/10
    else
      (2/10) * (((validate_invoice e).item_calculations.countP (fun c => c.valid) : ℚ) /
        ((validate_invoice e).item_calculations.length : ℚ)) +
      (if (validate_invoice e).tax_validation.valid then 2/10 else 0)
  min ((3/10) * header_frac + items_part + valid_part) 1

/-! Helper lemmas about the stable descending sort. -/

theorem mem_insert_desc {α : Type} (f : α → ℚ) (x : α) (l : List α) (a : α) :
    a ∈ insert_desc f x l ↔ a = x ∨ a ∈ l := by
  induction l with
  | nil => simp [insert_desc]
  | cons y ys ih =>
    simp only [insert_desc]
    split_ifs
    · simp
    · simp only [List.mem_cons, ih]
      tauto

theorem sort_desc_eq_nil_iff {α : Type} (f : α → ℚ) (l : List α) :
    sort_desc f l = [] ↔ l = [] := by
  cases l with
  | nil => simp [sort_desc]
  | cons x xs =>
    simp only [sort_desc]
    constructor
    · intro h
      exfalso
      have hx : x ∈ insert_desc f x (sort_desc f xs) := by
        rw [mem_insert_desc]; exact Or.inl rfl
      rw [h] at hx
      exact List.not_mem_nil _ hx
    · intro h; cases h

theorem mem_sort_desc {α : Type} (f : α → ℚ) (l : List α) (a : α) :
    a ∈ sort_desc f l ↔ a ∈ l := by
  induction l with
  | nil => simp [sort_desc]
  | cons x xs ih => simp [sort_desc, mem_insert_desc, ih]

theorem insert_desc_length {α : Type} (f : α → ℚ) (x : α) (l : List α) :
    (insert_desc f x l).length = l.length + 1 := by
  induction l with
  | nil => rfl
  | cons y ys ih =>
    simp only [insert_desc]
    split_ifs <;> simp [ih]

theorem sort_desc_length {α : Type} (f : α → ℚ) (l : List α) :
    (sort_desc f l).length = l.length := by
  induction l with
  | nil => rfl
  | cons x xs ih => simp [sort_desc, insert_desc_length, ih]

theorem sort_desc_head_max {α : Type} (f : α → ℚ) (l : List α) (t : α) (ts : List α)
    (h : sort_desc f l = t :: ts) : ∀ a ∈ l, f a ≤ f t := by
  induction l generalizing t ts with
  | nil => cases h
  | cons x xs ih =>
    simp only [sort_desc] at h
    cases hs : sort_desc f xs with
    | nil =>
      have hxs : xs = [] := (sort_desc_eq_nil_iff f xs).1 hs
      rw [hs] at h
      simp only [insert_desc] at h
      injection h with h1 _
      subst h1 hxs
      intro a ha
      rcases List.mem_cons.1 ha with rfl | ha
      · exact le_refl _
      · exact absurd ha (List.not_mem_nil _)
    | cons u us =>
      have hmax : ∀ a ∈ xs, f a ≤ f u := ih u us hs
      rw [hs] at h
      simp only [insert_desc] at h
      split_ifs at h with hle
      · injection h with h1 _
        subst h1
        intro a ha
        rcases List.mem_cons.1 ha with rfl | ha
        · exact le_refl _
        · exact le_trans (hmax a ha) hle
      · injection h with h1 _
        subst h1
        intro a ha
        rcases List.mem_cons.1 ha with rfl | ha
        · exact le_of_not_le hle
        · exact hmax a ha

/-! Helper lemmas about the decision agent's selection functions. -/

theorem select_best_heuristic_of_sort (results : List (String × InvoiceExtraction))
    (t : String × InvoiceExtraction × ℚ) (ts : List (String × InvoiceExtraction × ℚ))
    (hsort : sort_desc triple_score (results.map mk_scored) = t :: ts) :
    select_best_heuristic results =
      some ⟨t.1, t.2.2, "Selected based on quality score", t.2.1⟩ := by
  unfold select_best_heuristic
  rw [hsort]

theorem sorted_top_facts (results : List (String × InvoiceExtraction))
    (t : String × InvoiceExtraction × ℚ) (ts : List (String × InvoiceExtraction × ℚ))
    (hsort : sort_desc triple_score (results.map mk_scored) = t :: ts) :
    (t.1, t.2.1) ∈ results ∧ t.2.2 = calculate_score t.2.1 ∧
      ∀ r ∈ results, calculate_score r.2 ≤ t.2.2 := by
  have htm : t ∈ results.map mk_scored := by
    rw [← mem_sort_desc triple_score, hsort]
    exact List.mem_cons_self _ _
  rcases List.mem_map.1 htm with ⟨r, hr, hmk⟩
  subst hmk
  refine ⟨by simpa [mk_scored] using hr, rfl, ?_⟩
  intro r' hr'
  exact sort_desc_head_max triple_score (results.map mk_scored) _ _ hsort
    (mk_scored r') (List.mem_map_of_mem _ hr')

theorem select_best_heuristic_mem (results : List (String × InvoiceExtraction))
    (d : AgentDecision) (h : select_best_heuristic results = some d) :
    d.result ∈ results.map (fun r => r.2) := by
  cases hs : sort_desc triple_score (results.map mk_scored) with
  | nil =>
    unfold select_best_heuristic at h
    rw [hs] at h
    cases h
  | cons t ts =>
    rw [select_best_heuristic_of_sort results t ts hs] at h
    injection h with h
    subst h
    have htm : t ∈ results.map mk_scored := by
      rw [← mem_sort_desc triple_score, hs]
      exact List.mem_cons_self _ _
    rcases List.mem_map.1 htm with ⟨r, hr, hmk⟩
    subst hmk
    simpa using List.mem_map_of_mem (fun r => r.2) hr

/-- Claim C1, counterexample: the claim as stated fails on an item whose
three numeric fields are all present but `unit_price` is `0` — the claim
demands the computed verdict (`expected = 0`, `actual = 5`,
`valid = false`), while the code takes the skip branch because Python
truthiness treats `0.0` like a missing field. -/
theorem validate_item_claim_counterexample :
    ¬ item_claim_spec ⟨none, some 2, some 0, some 5, none⟩ 0 := by
  intro h
  have h2 := h.2.1
  simp [validate_item_calculation, truthyQ, item_claim_spec] at h2

/-- Claim C1, amended: for every line item, if any of `quantity`,
`unit_price`, `total_price` is missing or equal to `0`, the per-item
verdict is `valid` and `skipped`; otherwise the verdict reports
`expected = round(quantity * unit_price, 2)` and
`actual = round(total_price, 2)`, is valid exactly when
`|expected - actual| < 0.01`, and preserves the item's original index. -/
theorem validate_item_amended (item : InvoiceItem) (index : ℕ) :
    item_claim_amended_spec item index := by
  unfold item_claim_amended_spec
  rcases hq : item.quantity with _ | q <;> rcases hu : item.unit_price with _ | up <;>
    rcases ht : item.total_price with _ | tp <;>
      simp only [validate_item_calculation, truthyQ, hq, hu, ht] <;>
      simp_all [truthyQ]
  by_cases hz : q = 0 ∨ up = 0 ∨ tp = 0
  · have hcond : ¬q = 0 → ¬up = 0 → tp = 0 := by
      rcases hz with h | h | h
      · intro h1 _; exact absurd h h1
      · intro _ h2; exact absurd h h2
      · intro _ _; exact h
    rw [if_pos hz, if_pos hcond]
    simp
  · have hz' := hz
    push_neg at hz'
    have hcond : ¬(¬q = 0 → ¬up = 0 → tp = 0) := fun h => hz'.2.2 (h hz'.1 hz'.2.1)
    rw [if_neg hz, if_neg hcond]
    simp

/-- Claim C2, counterexample: the claim as stated fails on a candidate
with item subtotal `100` and header `total_amount = 0` — the total is
present, so the claim demands the invalid verdict, while the code takes
the skip branch because Python truthiness treats `0.0` like a missing
total. -/
theorem validate_tax_claim_counterexample :
    ¬ tax_claim_spec
      ⟨⟨none, none, none, some 0, none⟩, [⟨none, none, none, some 100, none⟩]⟩ := by
  intro h
  have h1 := h.1
  simp [validate_tax, items_subtotal, truthyQ] at h1

/-- Claim C2, amended: the tax verdict is computed from the sum of the
present item totals; if that subtotal is nonpositive or the header
`total_amount` is missing or equal to `0`, the verdict is valid and
skipped; otherwise, with `expectedWithTax = round(subtotal * 1.18, 2)`,
the verdict is valid with `vat_applied = true` when
`|expectedWithTax - total| < 1`, else valid with `vat_applied = false`
when `|subtotal - total| < 1`, else invalid, reporting the subtotal,
`expectedWithTax`, and the total. -/
theorem validate_tax_amended (data : InvoiceExtraction) :
    tax_claim_amended_spec data := by
  unfold tax_claim_amended_spec validate_tax
  rcases hta : data.general_fields.total_amount with _ | total
  · simp [truthyQ, hta]
  · simp only [hta, truthyQ, Option.getD_some, decide_not, Bool.not_eq_true',
      decide_eq_false_iff_not, not_not]
    split_ifs <;> simp_all

/-- Claim C3: the arbiter's score equals the spec's weighted-sum formula
(`0.3·header fraction`, plus `0.2 + 0.1·item-slot fraction` for nonempty
items, plus `0.4` for an overall-valid report and otherwise
`0.2·valid-item fraction` plus `0.2` for a valid tax verdict, capped at
`1`), and it always lies in `[0, 1]`. -/
theorem calculate_score_matches_spec (e : InvoiceExtraction) :
    calculate_score e = score_claim_spec e ∧
    0 ≤ calculate_score e ∧ calculate_score e ≤ 1 := by
  have hform : calculate_score e = min
      ((count_general e.general_fields : ℚ) / 5 * (3/10) +
        (if e.items.isEmpty then 0
         else 2/10 + (count_item_fields e.items : ℚ) / ((e.items.length : ℚ) * 4) * (1/10)) +
        (if (validate_invoice e).all_valid then 4/10
         else (if (validate_invoice e).item_calculations.isEmpty then 0
               else ((validate_invoice e).item_calculations.countP (fun c => c.valid) : ℚ) /
                 ((validate_invoice e).item_calculations.length : ℚ) * (2/10)) +
           (if (validate_invoice e).tax_validation.valid then 2/10 else 0))) 1 := rfl
  have hform' : score_claim_spec e = min
      ((3/10) * ((count_general e.general_fields : ℚ) / 5) +
        (if e.items = [] then 0
         else 2/10 + (1/10) * ((count_item_fields e.items : ℚ) / ((e.items.length : ℚ) * 4))) +
        (if (validate_invoice e).all_valid then 4/10
         else (2/10) * (((validate_invoice e).item_calculations.countP (fun c => c.valid) : ℚ) /
                 ((validate_invoice e).item_calculations.length : ℚ)) +
           (if (validate_invoice e).tax_validation.valid then 2/10 else 0))) 1 := rfl
  refine ⟨?_, ?_, hform ▸ min_le_right _ _⟩
  · rw [hform, hform']
    congr 1
    by_cases hi : e.items = [] <;>
      by_cases hv : (validate_invoice e).all_valid = true <;>
        by_cases hc : (validate_invoice e).item_calculations = [] <;>
          simp [hi, hv, hc, List.isEmpty_iff] <;> ring
  · rw [hform]
    refine le_min ?_ (by norm_num)
    have n1 : (0:ℚ) ≤ (count_general e.general_fields : ℚ) / 5 * (3/10) := by positivity
    have n2 : (0:ℚ) ≤
        (if e.items.isEmpty then 0
         else 2/10 + (count_item_fields e.items : ℚ) / ((e.items.length : ℚ) * 4) * (1/10)) := by
      split_ifs
      · norm_num
      · positivity
    have n3 : (0:ℚ) ≤
        (if (validate_invoice e).all_valid then 4/10
         else (if (validate_invoice e).item_calculations.isEmpty then 0
               else ((validate_invoice e).item_calculations.countP (fun c => c.valid) : ℚ) /
                 ((validate_invoice e).item_calculations.length : ℚ) * (2/10)) +
           (if (validate_invoice e).tax_validation.valid then 2/10 else 0)) := by
      split_ifs <;> norm_num <;> positivity
    linarith

/-- Claim C10: the validation engine treats zero values like missing
values — an item whose `quantity`, `unit_price`, or `total_price` equals
`0` (all three being present) gets a valid, skipped verdict, and a
candidate whose header `total_amount` equals `0` gets a valid, skipped
tax verdict. -/
theorem zero_values_skipped :
    (∀ (item : InvoiceItem) (index : ℕ) (q up tp : ℚ),
      item.quantity = some q → item.unit_price = some up → item.total_price = some tp →
      (q = 0 ∨ up = 0 ∨ tp = 0) →
      (validate_item_calculation item index).valid = true ∧
      (validate_item_calculation item index).skipped = true) ∧
    (∀ data : InvoiceExtraction, data.general_fields.total_amount = some 0 →
      (validate_tax data (18/100)).valid = true ∧
      (validate_tax data (18/100)).skipped = true) := by
  constructor
  · intro item index q up tp hq hu ht hz
    have hcond :
        ¬(truthyQ item.quantity ∧ truthyQ item.unit_price ∧ truthyQ item.total_price) := by
      simp [truthyQ, hq, hu, ht]
      intro h1 h2
      rcases hz with h | h | h
      · exact absurd h h1
      · exact absurd h h2
      · exact h
    rw [validate_item_calculation, if_pos hcond]
    exact ⟨rfl, rfl⟩
  · intro data hta
    have hcond : items_subtotal data ≤ 0 ∨ ¬ truthyQ data.general_fields.total_amount := by
      right; simp [truthyQ, hta]
    rw [validate_tax]
    rw [if_pos hcond]
    exact ⟨rfl, rfl⟩

/-- Claim C10, witness: a concrete zero-quantity item is skipped as
valid, and a concrete candidate with header total `0` gets a skipped
valid tax verdict. -/
theorem zero_values_skipped_witness :
    ((validate_item_calculation ⟨none, some 0, some 1, some 1, none⟩ 0).valid = true ∧
     (validate_item_calculation ⟨none, some 0, some 1, some 1, none⟩ 0).skipped = true) ∧
    ((validate_tax ⟨⟨none, none, none, some 0, none⟩, []⟩ (18/100)).valid = true ∧
     (validate_tax ⟨⟨none, none, none, some 0, none⟩, []⟩ (18/100)).skipped = true) :=
  ⟨zero_values_skipped.1 ⟨none, some 0, some 1, some 1, none⟩ 0 0 1 1 rfl rfl rfl
      (Or.inl rfl),
   zero_values_skipped.2 ⟨⟨none, none, none, some 0, none⟩, []⟩ rfl⟩

/-- Claim C4: with two or more successful candidates, scored and sorted
descending, the top entry is a candidate of maximal score; when the
top-two gap is at least `0.15` the top-scored candidate is selected and
the judge is not invoked; when the gap is below `0.15` the judge is
invoked, a successful judge output becomes the decision, and a failed
judge call falls back to the score-based selection of the top-scored
candidate. -/
theorem decide_gap_policy (judge : JudgeFn) (ra rb : String × InvoiceExtraction)
    (rs : List (String × InvoiceExtraction))
    (t1 t2 : String × InvoiceExtraction × ℚ) (ts : List (String × InvoiceExtraction × ℚ))
    (hsort : sort_desc triple_score ((ra :: rb :: rs).map mk_scored) = t1 :: t2 :: ts) :
    ((t1.1, t1.2.1) ∈ ra :: rb :: rs ∧ t1.2.2 = calculate_score t1.2.1 ∧
      ∀ r ∈ ra :: rb :: rs, calculate_score r.2 ≤ t1.2.2) ∧
    (15/100 ≤ |t1.2.2 - t2.2.2| →
      decide_from_results judge (ra :: rb :: rs) =
        ⟨some ⟨t1.1, t1.2.2, "Selected based on quality score", t1.2.1⟩, false, none⟩) ∧
    (|t1.2.2 - t2.2.2| < 15/100 →
      (decide_from_results judge (ra :: rb :: rs)).judge_invoked = true ∧
      (∀ d, judge ra rb = some d →
        (decide_from_results judge (ra :: rb :: rs)).decision = some d) ∧
      (judge ra rb = none →
        (decide_from_results judge (ra :: rb :: rs)).decision =
          some ⟨t1.1, t1.2.2, "Selected based on quality score", t1.2.1⟩)) := by
  have hheur := select_best_heuristic_of_sort _ _ _ hsort
  have hdec : decide_from_results judge (ra :: rb :: rs) =
      if |t1.2.2 - t2.2.2| < 15/100 then select_best_llm judge (ra :: rb :: rs)
      else ⟨select_best_heuristic (ra :: rb :: rs), false, none⟩ := by
    simp only [decide_from_results, hsort]
  refine ⟨sorted_top_facts _ _ _ hsort, ?_, ?_⟩
  · intro hge
    rw [hdec, if_neg (not_lt.2 hge), hheur]
  · intro hlt
    rw [hdec, if_pos hlt]
    cases hj : judge ra rb with
    | none =>
      simp only [select_best_llm, hj]
      refine ⟨trivial, ?_, ?_⟩
      · intro d hd
        exact nomatch hd
      · intro _
        exact hheur
    | some d0 =>
      simp only [select_best_llm, hj]
      refine ⟨trivial, ?_, ?_⟩
      · intro d hd
        injection hd with hd
        rw [hd]
      · intro hn
        exact nomatch hn

/-- Claim C4, witness: two concrete candidates scoring `0.7` and `0.4`
(gap `0.3 ≥ 0.15`) produce the heuristic selection of the top-scored
candidate without invoking the judge. -/
theorem decide_gap_policy_witness :
    decide_from_results (fun _ _ => none) [("a", sampleFull), ("b", sampleEmpty)] =
      ⟨some ⟨"a", 7/10, "Selected based on quality score", sampleFull⟩, false, none⟩ :=
  (decide_gap_policy (fun _ _ => none) ("a", sampleFull) ("b", sampleEmpty) []
    ("a", sampleFull, 7/10) ("b", sampleEmpty, 2/5) [] (by decide)).2.1 (by decide)

/-- Claim C5, counterexample: with three successful candidates scoring
`0.4`, `0.7`, `0.64` in completion order (top-two gap `0.06 < 0.15`), the
judge receives the first two results in completion order — including the
candidate scoring `0.4`, which is strictly below both others and hence
not among the top two by score. -/
theorem judge_pair_top_two_counterexample :
    (decide_from_results (fun _ _ => none)
        [("a", sampleEmpty), ("b", sampleFull), ("c", sampleFour)]).judge_pair =
      some (("a", sampleEmpty), ("b", sampleFull)) ∧
    calculate_score sampleEmpty < calculate_score sampleFour ∧
    calculate_score sampleEmpty < calculate_score sampleFull := by decide

/-- Claim C5, amended: whenever the judge is invoked (two or more
successful candidates, top-two score gap below `0.15`), the two
candidates handed to the judge are the first two elements of the
successful-results list in completion order, `results[0]` and
`results[1]` — which coincide with the top two by score only when
exactly two candidates succeeded. -/
theorem judge_pair_is_first_two (judge : JudgeFn) (ra rb : String × InvoiceExtraction)
    (rs : List (String × InvoiceExtraction))
    (t1 t2 : String × InvoiceExtraction × ℚ) (ts : List (String × InvoiceExtraction × ℚ))
    (hsort : sort_desc triple_score ((ra :: rb :: rs).map mk_scored) = t1 :: t2 :: ts)
    (hgap : |t1.2.2 - t2.2.2| < 15/100) :
    (decide_from_results judge (ra :: rb :: rs)).judge_invoked = true ∧
    (decide_from_results judge (ra :: rb :: rs)).judge_pair = some (ra, rb) := by
  have hdec : decide_from_results judge (ra :: rb :: rs) =
      if |t1.2.2 - t2.2.2| < 15/100 then select_best_llm judge (ra :: rb :: rs)
      else ⟨select_best_heuristic (ra :: rb :: rs), false, none⟩ := by
    simp only [decide_from_results, hsort]
  rw [hdec, if_pos hgap]
  cases hj : judge ra rb <;> simp [select_best_llm, hj]

/-- Claim C5, witness: on the three-candidate run of the counterexample,
the amended statement yields the pair `(results[0], results[1])`. -/
theorem judge_pair_is_first_two_witness :
    (decide_from_results (fun _ _ => none)
        [("a", sampleEmpty), ("b", sampleFull), ("c", sampleFour)]).judge_invoked = true :=
  (judge_pair_is_first_two (fun _ _ => none) ("a", sampleEmpty) ("b", sampleFull)
    [("c", sampleFour)] ("b", sampleFull, 7/10) ("c", sampleFour, 16/25)
    [("a", sampleEmpty, 2/5)] (by decide) (by decide)).1

/-- Claim C9, counterexample: on a judge-path run, a judge backend that
returns a synthesized decision makes that output the Decision verbatim —
its result is not among the run's candidates, so the claimed invariant
fails on the successful-judge path. -/
theorem decision_result_counterexample :
    (decide_from_results (fun _ _ => some ⟨"x", 1/2, "synthesized", sampleEmpty⟩)
        [("b", sampleFull), ("c", sampleFour)]).decision =
      some ⟨"x", 1/2, "synthesized", sampleEmpty⟩ ∧
    sampleEmpty ∉ [("b", sampleFull), ("c", sampleFour)].map (fun r => r.2) := by decide

/-- Claim C9, amended: every Decision's result is by value one of the
run's candidates on the single-result, heuristic, and judge-fallback
paths; on a successful judge call the Decision is exactly the judge
backend's output, which the code does not constrain to reference a
candidate. -/
theorem decision_result_from_candidates (judge : JudgeFn)
    (results : List (String × InvoiceExtraction)) (d : AgentDecision)
    (hd : (decide_from_results judge results).decision = some d) :
    d.result ∈ results.map (fun r => r.2) ∨
    ∃ p, (decide_from_results judge results).judge_pair = some p ∧
      judge p.1 p.2 = some d := by
  rcases results with _ | ⟨ra, _ | ⟨rb, rs⟩⟩
  · exact nomatch hd
  · simp only [decide_from_results] at hd
    injection hd with hd
    subst hd
    left
    simp
  · have hlen : (sort_desc triple_score ((ra :: rb :: rs).map mk_scored)).length =
        rs.length + 2 := by
      rw [sort_desc_length, List.length_map]
      simp [Nat.add_comm]
      omega
    cases hs : sort_desc triple_score ((ra :: rb :: rs).map mk_scored) with
    | nil => rw [hs] at hlen; cases hlen
    | cons t1 tl =>
      cases tl with
      | nil => rw [hs] at hlen; simp at hlen
      | cons t2 ts =>
        have hdec : decide_from_results judge (ra :: rb :: rs) =
            if |t1.2.2 - t2.2.2| < 15/100 then select_best_llm judge (ra :: rb :: rs)
            else ⟨select_best_heuristic (ra :: rb :: rs), false, none⟩ := by
          simp only [decide_from_results, hs]
        rw [hdec] at hd ⊢
        split_ifs at hd ⊢ with hgap
        · cases hj : judge ra rb with
          | none =>
            simp only [select_best_llm, hj] at hd ⊢
            exact Or.inl (select_best_heuristic_mem _ _ hd)
          | some d0 =>
            simp only [select_best_llm, hj] at hd ⊢
            right
            refine ⟨(ra, rb), rfl, ?_⟩
            rw [hj, hd]
        · exact Or.inl (select_best_heuristic_mem _ _ hd)

/-- Claim C9, witness: on a concrete single-success run the Decision's
result is the lone candidate. -/
theorem decision_result_from_candidates_witness :
    (⟨"a", calculate_score sampleFull, "Only one extraction succeeded", sampleFull⟩ :
        AgentDecision).result ∈
      ([("a", sampleFull)].map (fun r => r.2)) ∨
    ∃ p, (decide_from_results (fun _ _ => none) [("a", sampleFull)]).judge_pair = some p ∧
      (fun _ _ => none : JudgeFn) p.1 p.2 =
        some ⟨"a", calculate_score sampleFull, "Only one extraction succeeded", sampleFull⟩ :=
  decision_result_from_candidates (fun _ _ => none) [("a", sampleFull)] _ (by decide)

/-! Helper lemmas about the OCR provider chain. -/

theorem max_by_conf_spec (r : OCRResult) (rs : List OCRResult) :
    max_by_conf r rs ∈ r :: rs ∧
    ∀ s ∈ r :: rs, s.confidence ≤ (max_by_conf r rs).confidence := by
  induction rs generalizing r with
  | nil => simp [max_by_conf]
  | cons x xs ih =>
    simp only [max_by_conf]
    rcases ih (if r.confidence < x.confidence then x else r) with ⟨hmem, hge⟩
    constructor
    · rcases List.mem_cons.1 hmem with he | hm
      · rw [he]
        split_ifs
        · exact List.mem_cons_of_mem _ (List.mem_cons_self _ _)
        · exact List.mem_cons_self _ _
      · exact List.mem_cons_of_mem _ (List.mem_cons_of_mem _ hm)
    · intro s hs
      have hhead : (if r.confidence < x.confidence then x else r).confidence ≤
          (max_by_conf (if r.confidence < x.confidence then x else r) xs).confidence :=
        hge _ (List.mem_cons_self _ _)
      rcases List.mem_cons.1 hs with he | hm
      · subst he
        refine le_trans ?_ hhead
        split_ifs with h
        · exact le_of_lt h
        · exact le_refl _
      · rcases List.mem_cons.1 hm with he | hm'
        · subst he
          refine le_trans ?_ hhead
          split_ifs with h
          · exact le_refl _
          · exact not_lt.1 h
        · exact hge _ (List.mem_cons_of_mem _ hm')

theorem chain_aux_short_circuit (minc : ℚ) (pre : List (Option OCRResult)) (r : OCRResult)
    (post : List (Option OCRResult)) (acc : List OCRResult)
    (hpre : ∀ s, some s ∈ pre → s.confidence < minc) (hr : minc ≤ r.confidence) :
    chain_extract_aux minc (pre ++ some r :: post) acc = some r := by
  induction pre generalizing acc with
  | nil => simp [chain_extract_aux, hr]
  | cons o os ih =>
    cases o with
    | none =>
      simp only [List.cons_append, chain_extract_aux]
      exact ih _ (fun s hs => hpre s (List.mem_cons_of_mem _ hs))
    | some s =>
      have hlow : s.confidence < minc := hpre s (List.mem_cons_self _ _)
      simp only [List.cons_append, chain_extract_aux]
      rw [if_neg (not_le.2 hlow)]
      exact ih _ (fun s' hs' => hpre s' (List.mem_cons_of_mem _ hs'))

theorem chain_aux_exhaust (minc : ℚ) (l : List (Option OCRResult)) (acc : List OCRResult)
    (hlow : ∀ s ∈ l.filterMap id, s.confidence < minc) :
    chain_extract_aux minc l acc =
      match acc ++ l.filterMap id with
      | [] => none
      | r :: rs => some (max_by_conf r rs) := by
  induction l generalizing acc with
  | nil => simp [chain_extract_aux]
  | cons o os ih =>
    cases o with
    | none =>
      simp only [chain_extract_aux, List.filterMap_cons, id] at hlow ⊢
      exact ih _ hlow
    | some s =>
      simp only [List.filterMap_cons, id] at hlow ⊢
      have hs : s.confidence < minc := hlow s (List.mem_cons_self _ _)
      simp only [chain_extract_aux]
      rw [if_neg (not_le.2 hs)]
      rw [ih _ (fun s' hs' => hlow s' (List.mem_cons_of_mem _ hs'))]
      rw [List.append_assoc, List.singleton_append]

/-- Claim C6: the OCR provider chain tries its providers in order — a
success at or above the confidence threshold is returned immediately
regardless of the providers after it; if every success stayed below the
threshold the chain returns the retained candidate of highest confidence
(the first such, a member of the retained list, with every retained
confidence at most its own); with no success at all the chain fails with
the aggregate error (modelled by `none`); and a provider failure is
absorbed, continuing the iteration unchanged. -/
theorem ocr_chain_policy (minc : ℚ) :
    (∀ (pre : List (Option OCRResult)) (r : OCRResult) (post : List (Option OCRResult)),
      (∀ s, some s ∈ pre → s.confidence < minc) → minc ≤ r.confidence →
      chain_extract minc (pre ++ some r :: post) = some r) ∧
    (∀ (l : List (Option OCRResult)) (r : OCRResult) (rs : List OCRResult),
      (∀ s ∈ l.filterMap id, s.confidence < minc) → l.filterMap id = r :: rs →
      chain_extract minc l = some (max_by_conf r rs) ∧
      max_by_conf r rs ∈ r :: rs ∧
      ∀ s ∈ r :: rs, s.confidence ≤ (max_by_conf r rs).confidence) ∧
    (∀ l : List (Option OCRResult), l.filterMap id = [] → chain_extract minc l = none) ∧
    (∀ l : List (Option OCRResult),
      chain_extract minc (none :: l) = chain_extract minc l) := by
  refine ⟨?_, ?_, ?_, ?_⟩
  · intro pre r post hpre hr
    exact chain_aux_short_circuit minc pre r post [] hpre hr
  · intro l r rs hlow hfm
    refine ⟨?_, max_by_conf_spec r rs⟩
    have h := chain_aux_exhaust minc l [] hlow
    rw [List.nil_append, hfm] at h
    exact h
  · intro l hfm
    have hlow : ∀ s ∈ l.filterMap id, s.confidence < minc := by
      rw [hfm]; intro s hs; exact absurd hs (List.not_mem_nil _)
    have h := chain_aux_exhaust minc l [] hlow
    rw [List.nil_append, hfm] at h
    exact h
  · intro l
    rfl

/-- Claim C6, witness: the first provider fails and the second succeeds
below the `0.5` threshold — the chain returns that best retained result
rather than an error. -/
theorem ocr_chain_policy_witness :
    chain_extract (1/2) [none, some ⟨"t", 2/5, "en", 0, "easyocr"⟩] =
      some (max_by_conf ⟨"t", 2/5, "en", 0, "easyocr"⟩ []) :=
  ((ocr_chain_policy (1/2)).2.1 [none, some ⟨"t", 2/5, "en", 0, "easyocr"⟩]
    ⟨"t", 2/5, "en", 0, "easyocr"⟩ [] (by decide) (by decide)).1

/-- Claim C7: blank OCR text immediately yields the poor, confidence-0
assessment with the default retry parameter and no model call; the three
heuristic issues are flagged exactly under the spec's conditions; and two
or more heuristic issues short-circuit to the poor, confidence-0.3
assessment with issue-derived parameters, again without calling the
model backend. -/
theorem quality_gate_prefilter (llm : Option OCRQualityAssessment) (ocr : OCRResult) :
    (is_blank ocr.text = true →
      assess_quality llm ocr =
        ({ quality := .poor, confidence := 0, issues := ["empty_text"],
           should_retry := true, suggested_params := some [("det_db_thresh", 2/10)] },
         false)) ∧
    (is_blank ocr.text = false → 2 ≤ (quick_issues_of ocr.text).length →
      assess_quality llm ocr =
        ({ quality := .poor, confidence := 3/10, issues := quick_issues_of ocr.text,
           should_retry := true,
           suggested_params := some (get_retry_params (quick_issues_of ocr.text)) },
         false)) ∧
    ("text_too_short" ∈ quick_issues_of ocr.text ↔ ocr.text.length < 50) ∧
    ("no_numbers" ∈ quick_issues_of ocr.text ↔
      ¬ ocr.text.toList.any (fun c => c.isDigit)) ∧
    ("excessive_special_chars" ∈ quick_issues_of ocr.text ↔
      (special_count ocr.text : ℚ) / (ocr.text.length : ℚ) > 3/10) := by
  refine ⟨?_, ?_, ?_, ?_, ?_⟩
  · intro he
    rw [assess_quality.eq_def, if_pos (by rw [he])]
  · intro he hn
    rw [assess_quality.eq_def, if_neg (by rw [he]; exact fun h => Bool.false_ne_true h)]
    simp only [if_pos hn]
  · unfold quick_issues_of
    split_ifs <;> simp_all
  · unfold quick_issues_of
    split_ifs <;> simp_all
  · unfold quick_issues_of
    split_ifs <;> simp_all

/-- Claim C7, witness: the ten-characters-short, digit-free, fully
special text of four symbols trips at least two heuristic issues and is
rejected without a model call. -/
theorem quality_gate_prefilter_witness :
    2 ≤ (quick_issues_of "@#$%").length ∧
    assess_quality none ⟨"@#$%", 0, "en", 0, "paddleocr"⟩ =
      ({ quality := .poor, confidence := 3/10, issues := quick_issues_of "@#$%",
         should_retry := true,
         suggested_params := some (get_retry_params (quick_issues_of "@#$%")) },
       false) :=
  ⟨by decide,
   (quality_gate_prefilter none ⟨"@#$%", 0, "en", 0, "paddleocr"⟩).2.1
     (by decide) (by decide)⟩

/-- Claim C8: when the text passes the heuristic pre-filter and the
model backend fails, the gate returns the deterministic fallback —
quality is good exactly when the OCR confidence exceeds `0.7`, the
assessment confidence equals the OCR confidence, the issue list is
`[assessment_failed]`, and a retry is requested exactly when the OCR
confidence is below `0.5`. -/
theorem quality_gate_fallback (ocr : OCRResult)
    (h1 : is_blank ocr.text = false) (h2 : (quick_issues_of ocr.text).length < 2) :
    assess_quality none ocr =
      ({ quality := if 7/10 < ocr.confidence then .good else .poor,
         confidence := ocr.confidence, issues := ["assessment_failed"],
         should_retry := decide (ocr.confidence < 5/10), suggested_params := none },
       true) ∧
    ((assess_quality none ocr).1.quality = .good ↔ 7/10 < ocr.confidence) ∧
    ((assess_quality none ocr).1.should_retry = true ↔ ocr.confidence < 5/10) := by
  have heq : assess_quality none ocr =
      ({ quality := if 7/10 < ocr.confidence then .good else .poor,
         confidence := ocr.confidence, issues := ["assessment_failed"],
         should_retry := decide (ocr.confidence < 5/10), suggested_params := none },
       true) := by
    rw [assess_quality.eq_def, if_neg (by rw [h1]; exact fun h => Bool.false_ne_true h)]
    simp only [if_neg (not_le.2 h2)]
  refine ⟨heq, ?_, ?_⟩
  · rw [heq]
    split_ifs with h
    · simp [h]
    · simp [h]
  · rw [heq]
    simp

/-- Claim C8, witness: clean short text with digits (a single heuristic
issue) and OCR confidence `0.9` falls back to a good, no-retry
assessment when the backend fails. -/
theorem quality_gate_fallback_witness :
    assess_quality none ⟨"abc 123", 9/10, "en", 0, "paddleocr"⟩ =
      ({ quality := .good, confidence := 9/10, issues := ["assessment_failed"],
         should_retry := false, suggested_params := none }, true) := by
  have h := (quality_gate_fallback ⟨"abc 123", 9/10, "en", 0, "paddleocr"⟩
    (by decide) (by decide)).1
  rw [h]
  decide

end InvoiceApp
